import Mathlib

/-!
Shallow embedding of the numbat video playback core
(`src/labeling_tool/decoder.py` and `src/labeling_tool/VideoTimer.py`),
together with theorems settling the specification claims about it.

Times are modelled as integers (milliseconds for the pacer, abstract
stream units for the decoder).  Byte buffers are lists of naturals.
The external demux/decode library's stream-seek behaviour is a
parameter (`seekFn`), since it lives outside this repository.
-/

namespace Numbat

/-! ## Decoder (`decoder.py`) -/

/-- One video plane as exposed by the decode library: a stride
(`line_size`), a logical pixel width, and the raw byte buffer
(rows of `line_size` bytes each, concatenated). -/
structure Plane where
  line_size : Nat
  width : Nat
  data : List Nat
deriving DecidableEq, Repr

/-- One decoded frame as pulled from the decode library: its pixel
format name, its presentation time (abstract units; a float of seconds
in the source) and its three planes. -/
structure Frame where
  format_name : String
  time : Int
  planes : Plane × Plane × Plane
deriving DecidableEq, Repr

/-- Splits a list into consecutive chunks of `n` elements (the last chunk
may be shorter), using an explicit fuel argument so that the definition
is structurally recursive.  This models `numpy.reshape(-1, n)` on a
buffer whose length is a multiple of `n`. -/
def chunksAux (n : Nat) : Nat → List α → List (List α)
  | 0, _ => []
  | _ + 1, [] => []
  | fuel + 1, x :: xs => (x :: xs).take n :: chunksAux n fuel ((x :: xs).drop n)

/-- Views a flat buffer as rows of `n` elements each. -/
def chunks (n : Nat) (l : List α) : List (List α) :=
  chunksAux n l.length l

/-- Embedding of `Decoder._remove_padding`: if the stride differs from the
logical row byte-width, view the buffer as stride-wide rows and slice
each row to the logical width; otherwise reshape the buffer as-is. -/
def remove_padding (p : Plane) : List (List Nat) :=
  let buf_width := p.line_size
  let bytes_per_pixel := 1
  let frame_width := p.width * bytes_per_pixel
  if buf_width ≠ frame_width then
    (chunks buf_width p.data).map (fun row => row.take frame_width)
  else
    chunks frame_width p.data

/-- Errors the decoder can raise: `attributeError` models calling a
method on a `None` container (as `close` does on an already-closed
decoder), `unsupportedFormat` models the `ValueError` raised on a pixel
format other than yuv420p/yuvj420p. -/
inductive DecodeError
  | attributeError
  | unsupportedFormat (name : String)
deriving DecidableEq, Repr

/-- Signals emitted by the decoder: `decoded` carries the frame time, the
three padding-stripped planes and the seeked flag; `finished` marks end
of stream. -/
inductive DSig
  | decoded (time : Int) (planes : List (List Nat) × List (List Nat) × List (List Nat))
      (seeked : Bool)
  | finished
deriving DecidableEq, Repr

/-- Decoder state: `container` is `some remainingFrames` while open
(collapsing the container handle and the decode cursor into the list of
frames still to be pulled) and `none` once closed; `seekSlot` is the
single pending-seek register `_seek`. -/
structure DecoderState where
  container : Option (List Frame)
  seekSlot : Option Int
deriving DecidableEq, Repr

/-- Embedding of `Decoder.is_closed`: the decoder is closed when the
container reference has been dropped. -/
def is_closed (s : DecoderState) : Bool :=
  s.container.isNone

/-- Embedding of `Decoder.close`: `self._container.close()` raises
`AttributeError` when `_container` is `None`; otherwise all three
resource fields are cleared. -/
def close (s : DecoderState) : Except DecodeError DecoderState :=
  match s.container with
  | none => Except.error DecodeError.attributeError
  | some _ => Except.ok ⟨none, none⟩

/-- Embedding of `Decoder.seek` (whose parameter is named `to` in the
source): records the target in the single pending-seek slot and does
nothing else. -/
def seek (t : Int) (s : DecoderState) : DecoderState :=
  { s with seekSlot := some t }

/-- The tail of `Decoder.on_decode` after the closed-check and the
seek-application: pull the next frame from the (possibly re-positioned)
stream; on exhaustion close and emit `finished`; on a bad pixel format
raise; otherwise strip padding from the three planes and emit
`decoded` tagged with `seeked`. -/
def on_decode_pull (frames : List Frame) (seeked : Bool) :
    Except DecodeError (DecoderState × List DSig) :=
  match frames with
  | [] => Except.ok (⟨none, none⟩, [DSig.finished])
  | f :: rest =>
    if f.format_name = "yuv420p" ∨ f.format_name = "yuvj420p" then
      Except.ok (⟨some rest, none⟩,
        [DSig.decoded f.time
          (remove_padding f.planes.1, remove_padding f.planes.2.1,
            remove_padding f.planes.2.2) seeked])
    else
      Except.error (DecodeError.unsupportedFormat f.format_name)

/-- Embedding of `Decoder.on_decode`.  `seekFn` models the external
library's `container.seek`: given the seek target and the stream it
yields the re-positioned stream.  A closed decoder returns immediately
with no signals; a pending seek is applied and cleared, and the frame
pulled right after it is tagged `seeked = true`. -/
def on_decode (seekFn : Int → List Frame → List Frame) (s : DecoderState) :
    Except DecodeError (DecoderState × List DSig) :=
  match s.container with
  | none => Except.ok (s, [])
  | some frames =>
    match s.seekSlot with
    | some t => on_decode_pull (seekFn t frames) true
    | none => on_decode_pull frames false

/-- The library constant `av.time_base` (microseconds). -/
def av_time_base : Int := 1000000

/-- Python `int()` applied to a rational: truncation toward zero. -/
def pyInt (q : Rat) : Int :=
  if 0 ≤ q then q.floor else q.ceil

/-- Embedding of the `Decoder.duration` property: the stream-reported
duration when present, else the container duration converted through
`av.time_base` and the stream time base; either way passed through
`int(x + 0.5)`. -/
def duration (stream_duration : Option Int) (container_duration : Int)
    (time_base : Rat) : Int :=
  let d : Rat :=
    match stream_duration with
    | some d => (d : Rat)
    | none => (container_duration : Rat) / (av_time_base : Rat) / time_base
  pyInt (d + 1 / 2)

/-! ## Pacer (`VideoTimer.py`) -/

/-- Embedding of `AlignableTimer`: `base` is the value passed to
`start`, `startedAt` the raw monotonic reading at the moment `start`
was called.  The raw clock is passed explicitly as `now` to `elapsed`.
In the source the timer starts unstarted (`_base = None`); every code
path of the pacer starts it before reading it, so the initial field
values below are never observed. -/
structure AlignableTimer where
  base : Int
  startedAt : Int
deriving DecidableEq, Repr

/-- Embedding of `AlignableTimer.start`. -/
def AlignableTimer.start (now ms : Int) : AlignableTimer :=
  ⟨ms, now⟩

/-- Embedding of `AlignableTimer.elapsed` at raw monotonic time `now`. -/
def AlignableTimer.elapsed (c : AlignableTimer) (now : Int) : Int :=
  c.base + (now - c.startedAt)

/-- Signals emitted by the pacer (payloads elided). -/
inductive VSig
  | decode
  | prepare
  | render
deriving DecidableEq, Repr

/-- Pacer state: the alignable reference clock, `_last_presented_at`
(initially −1) and `_present_at` (initially 0). -/
structure VideoTimerState where
  clock : AlignableTimer
  lastPresentedAt : Int
  presentAt : Int
deriving DecidableEq, Repr

/-- The pacer state right after `VideoTimer.__init__`. -/
def VideoTimerState.init : VideoTimerState :=
  ⟨⟨0, 0⟩, -1, 0⟩

/-- Embedding of `VideoTimer.on_decoded` at raw monotonic time `now`,
with the frame's presentation time already converted to integer
milliseconds.  Returns the new state and the emitted signals. -/
def on_decoded (s : VideoTimerState) (now ptsMs : Int) (seeked : Bool) :
    VideoTimerState × List VSig :=
  let s1 :=
    if s.lastPresentedAt < 0 then
      { s with clock := AlignableTimer.start now 0 }
    else if seeked then
      { s with clock := AlignableTimer.start now (ptsMs - 30), lastPresentedAt := -1 }
    else s
  if ptsMs ≤ s1.lastPresentedAt then
    (s1, [VSig.decode])
  else
    ({ s1 with presentAt := ptsMs }, [VSig.prepare])

/-- Embedding of `VideoTimer._on_timeout` at raw monotonic time `now`:
records the clock reading as the presentation time of the frame and
requests the render. -/
def on_timeout (s : VideoTimerState) (now : Int) : VideoTimerState × List VSig :=
  ({ s with lastPresentedAt := s.clock.elapsed now }, [VSig.render])

/-- What `on_prepared` did to the one-shot timer: fired the timeout
handler synchronously, or armed the timer for `rem` milliseconds. -/
inductive TimerCmd
  | fired
  | armed (rem : Int)
deriving DecidableEq, Repr

/-- Embedding of `VideoTimer.on_prepared` at raw monotonic time `now`:
with no time left the timeout handler runs synchronously, otherwise the
one-shot timer is armed for the remaining time. -/
def on_prepared (s : VideoTimerState) (now : Int) :
    VideoTimerState × List VSig × TimerCmd :=
  let rem := s.presentAt - s.clock.elapsed now
  if rem ≤ 0 then
    let r := on_timeout s now
    (r.1, r.2, TimerCmd.fired)
  else
    (s, [], TimerCmd.armed rem)

/-- Embedding of `VideoTimer.on_rendered`: restarts the cycle with a
decode request. -/
def on_rendered (s : VideoTimerState) : VideoTimerState × List VSig :=
  (s, [VSig.decode])

/-! ## Helper lemmas about `chunks` -/

theorem chunksAux_flatten {α : Type} (n : Nat) (hn : 0 < n) :
    ∀ (fuel : Nat) (l : List α), l.length ≤ fuel → (chunksAux n fuel l).flatten = l := by
  intro fuel
  induction fuel with
  | zero =>
    intro l hl
    have hnil : l = [] := List.eq_nil_of_length_eq_zero (Nat.le_zero.mp hl)
    subst hnil
    rfl
  | succ fuel ih =>
    intro l hl
    cases l with
    | nil => rfl
    | cons x xs =>
      have hd : ((x :: xs).drop n).length ≤ fuel := by
        rw [List.length_drop]
        simp only [List.length_cons] at hl ⊢
        omega
      show ((x :: xs).take n :: chunksAux n fuel ((x :: xs).drop n)).flatten = x :: xs
      rw [List.flatten_cons, ih _ hd, List.take_append_drop]

theorem chunksAux_mem_length {α : Type} (n : Nat) (hn : 0 < n) :
    ∀ (fuel : Nat) (l : List α), l.length ≤ fuel → n ∣ l.length →
      ∀ r ∈ chunksAux n fuel l, r.length = n := by
  intro fuel
  induction fuel with
  | zero =>
    intro l _ _ r hr
    simp only [chunksAux, List.not_mem_nil] at hr
  | succ fuel ih =>
    intro l hl hdvd r hr
    cases l with
    | nil => simp only [chunksAux, List.not_mem_nil] at hr
    | cons x xs =>
      have hlen : n ≤ (x :: xs).length := by
        refine Nat.le_of_dvd ?_ hdvd
        simp
      simp only [chunksAux, List.mem_cons] at hr
      rcases hr with hr | hr
      · subst hr
        rw [List.length_take]
        omega
      · refine ih ((x :: xs).drop n) ?_ ?_ r hr
        · rw [List.length_drop]
          simp only [List.length_cons] at hl ⊢
          omega
        · rw [List.length_drop]
          exact (Nat.dvd_sub' hdvd dvd_rfl)

theorem chunks_flatten {α : Type} (n : Nat) (hn : 0 < n) (l : List α) :
    (chunks n l).flatten = l :=
  chunksAux_flatten n hn l.length l le_rfl

theorem chunks_mem_length {α : Type} (n : Nat) (hn : 0 < n) (l : List α)
    (hdvd : n ∣ l.length) : ∀ r ∈ chunks n l, r.length = n :=
  chunksAux_mem_length n hn l.length l le_rfl hdvd

/-! ## Claim theorems -/

set_option maxRecDepth 8192 in
/-- C1 counterexample: a plane with `line_size = 144` and logical width
130 is sliced to rows of width 130 — exactly the logical width — not to
the 16-byte roundup 144 that the claim states. -/
theorem claim1_counterexample :
    (remove_padding ⟨144, 130, List.replicate 144 0⟩).map List.length = [130] ∧
    ¬ (remove_padding ⟨144, 130, List.replicate 144 0⟩).map List.length = [144] := by
  decide

/-- C1 (amended): padding removal slices every stride-wide row to
exactly the logical width, and when the stride already equals the
logical row width the buffer round-trips unchanged. -/
theorem claim1_remove_padding (p : Plane) (h1 : 0 < p.line_size)
    (h2 : p.width ≤ p.line_size) (h3 : p.line_size ∣ p.data.length) :
    (∀ r ∈ remove_padding p, r.length = p.width) ∧
    (p.line_size = p.width → (remove_padding p).flatten = p.data) := by
  constructor
  · intro r hr
    unfold remove_padding at hr
    simp only [Nat.mul_one] at hr
    by_cases heq : p.line_size = p.width
    · rw [if_neg (by simpa using heq)] at hr
      have := chunks_mem_length p.width (heq ▸ h1) p.data (heq ▸ h3) r hr
      exact this
    · rw [if_pos (by simpa using heq)] at hr
      obtain ⟨r', hr', rfl⟩ := List.mem_map.mp hr
      have hlen : r'.length = p.line_size :=
        chunks_mem_length p.line_size h1 p.data h3 r' hr'
      rw [List.length_take, hlen]
      omega
  · intro heq
    unfold remove_padding
    simp only [Nat.mul_one]
    rw [if_neg (by simpa using heq)]
    exact chunks_flatten p.width (heq ▸ h1) p.data

/-- C1 witness: a 16-wide plane with stride 16 and 32 bytes of data. -/
theorem claim1_remove_padding_witness :
    (∀ r ∈ remove_padding ⟨16, 16, List.replicate 32 3⟩, r.length = 16) ∧
    ((16 : Nat) = 16 →
      (remove_padding ⟨16, 16, List.replicate 32 3⟩).flatten = List.replicate 32 3) :=
  claim1_remove_padding ⟨16, 16, List.replicate 32 3⟩ (by decide) (by decide) (by decide)

/-- C2 counterexample: a `seeked = true` frame with `pts_ms = 1000`
arriving in the initial state (`last_presented_ms = −1`) starts the
clock at 0, so elapsed time reads 0 at that moment, not `1000 − 30`. -/
theorem claim2_counterexample :
    (on_decoded VideoTimerState.init 5000 1000 true).1.clock.elapsed 5000 = 0 ∧
    ¬ (on_decoded VideoTimerState.init 5000 1000 true).1.clock.elapsed 5000 = 1000 - 30 := by
  decide

/-- C2 (amended): on a `seeked = true` frame arriving while
`last_presented_ms` is nonnegative, the clock is re-based so that
elapsed time at that moment reads `pts_ms − 30` and
`last_presented_ms` is reset to −1. -/
theorem claim2_seek_rebase (s : VideoTimerState) (now ptsMs : Int)
    (h : 0 ≤ s.lastPresentedAt) :
    (on_decoded s now ptsMs true).1.clock.elapsed now = ptsMs - 30 ∧
    (on_decoded s now ptsMs true).1.lastPresentedAt = -1 := by
  unfold on_decoded
  have h1 : ¬ s.lastPresentedAt < 0 := by omega
  simp only [h1, if_false, if_true, ite_true, ite_false]
  split
  · constructor
    · simp [AlignableTimer.elapsed, AlignableTimer.start]
    · rfl
  · constructor
    · simp [AlignableTimer.elapsed, AlignableTimer.start]
    · rfl

/-- C2 witness: a state with `last_presented_ms = 0` receiving a seeked
frame at `pts_ms = 500`. -/
theorem claim2_seek_rebase_witness :
    (on_decoded ⟨⟨0, 0⟩, 0, 0⟩ 100 500 true).1.clock.elapsed 100 = 500 - 30 ∧
    (on_decoded ⟨⟨0, 0⟩, 0, 0⟩ 100 500 true).1.lastPresentedAt = -1 :=
  claim2_seek_rebase ⟨⟨0, 0⟩, 0, 0⟩ 100 500 (by decide)

/-- C4: a non-seeked frame whose timestamp is at most
`last_presented_ms` (with `last_presented_ms` nonnegative) is skipped:
the state is unchanged and exactly one decode signal is emitted. -/
theorem claim4_skip_late_frame (s : VideoTimerState) (now ptsMs : Int)
    (h0 : 0 ≤ s.lastPresentedAt) (h1 : ptsMs ≤ s.lastPresentedAt) :
    on_decoded s now ptsMs false = (s, [VSig.decode]) := by
  unfold on_decoded
  have h2 : ¬ s.lastPresentedAt < 0 := by omega
  simp [h2, h1]

/-- C4 witness: a frame with `pts_ms = 5` arriving after
`last_presented_ms = 10`. -/
theorem claim4_skip_late_frame_witness :
    on_decoded ⟨⟨0, 0⟩, 10, 0⟩ 3 5 false = (⟨⟨0, 0⟩, 10, 0⟩, [VSig.decode]) :=
  claim4_skip_late_frame ⟨⟨0, 0⟩, 10, 0⟩ 3 5 (by decide) (by decide)

/-- C10: on the skip path every pacer state field (clock epoch,
`last_presented_ms`, target presentation time) keeps its prior value,
the decode signal is emitted exactly once, and no prepare signal is
emitted. -/
theorem claim10_skip_preserves_state (s : VideoTimerState) (now ptsMs : Int)
    (h0 : 0 ≤ s.lastPresentedAt) (h1 : ptsMs ≤ s.lastPresentedAt) :
    (on_decoded s now ptsMs false).1.clock = s.clock ∧
    (on_decoded s now ptsMs false).1.lastPresentedAt = s.lastPresentedAt ∧
    (on_decoded s now ptsMs false).1.presentAt = s.presentAt ∧
    (on_decoded s now ptsMs false).2.count VSig.decode = 1 ∧
    VSig.prepare ∉ (on_decoded s now ptsMs false).2 := by
  unfold on_decoded
  have h2 : ¬ s.lastPresentedAt < 0 := by omega
  simp [h2, h1, List.count_cons]

/-- C10 witness: the skip path at a concrete state. -/
theorem claim10_skip_preserves_state_witness :
    (on_decoded ⟨⟨2, 7⟩, 10, 4⟩ 3 5 false).1.clock = (⟨2, 7⟩ : AlignableTimer) ∧
    (on_decoded ⟨⟨2, 7⟩, 10, 4⟩ 3 5 false).1.lastPresentedAt = 10 ∧
    (on_decoded ⟨⟨2, 7⟩, 10, 4⟩ 3 5 false).1.presentAt = 4 ∧
    (on_decoded ⟨⟨2, 7⟩, 10, 4⟩ 3 5 false).2.count VSig.decode = 1 ∧
    VSig.prepare ∉ (on_decoded ⟨⟨2, 7⟩, 10, 4⟩ 3 5 false).2 :=
  claim10_skip_preserves_state ⟨⟨2, 7⟩, 10, 4⟩ 3 5 (by decide) (by decide)

/-- C5: in a no-seek session, between two consecutive firings of the
render-deadline handler the recorded clock value strictly increases: if
a non-seeked frame is forwarded to prepare (not skipped) while
`last_presented_ms` is nonnegative, then whether the deadline fires
synchronously or through the armed timer (which never fires before its
deadline), the new `last_presented_ms` exceeds the old one. -/
theorem claim5_monotonic_presentation (s : VideoTimerState) (t2 t3 tf ptsMs : Int)
    (h0 : 0 ≤ s.lastPresentedAt)
    (hfwd : (on_decoded s t2 ptsMs false).2 = [VSig.prepare]) :
    match on_prepared (on_decoded s t2 ptsMs false).1 t3 with
    | (s2, _, TimerCmd.fired) => s.lastPresentedAt < s2.lastPresentedAt
    | (s2, _, TimerCmd.armed rem) =>
        t3 + rem ≤ tf → s.lastPresentedAt < ((on_timeout s2 tf).1).lastPresentedAt := by
  have h2 : ¬ s.lastPresentedAt < 0 := by omega
  have hlt : ¬ ptsMs ≤ s.lastPresentedAt := by
    intro hle
    unfold on_decoded at hfwd
    simp [h2, hle] at hfwd
  have hs1 : (on_decoded s t2 ptsMs false).1 = { s with presentAt := ptsMs } := by
    unfold on_decoded
    simp [h2, hlt]
  rw [hs1]
  rcases hp : on_prepared { s with presentAt := ptsMs } t3 with ⟨s2, out, cmd⟩
  simp only [on_prepared, on_timeout, AlignableTimer.elapsed] at hp
  split at hp
  · rename_i hrem
    cases hp
    simp only [AlignableTimer.elapsed]
    omega
  · rename_i hrem
    cases hp
    intro htf
    simp only [on_timeout, AlignableTimer.elapsed]
    omega

/-- C5 witness: previous presentation at 0 ms, next frame at 100 ms,
prepared at raw time 20, timer fires at raw time 130. -/
theorem claim5_monotonic_presentation_witness :
    match on_prepared (on_decoded ⟨⟨0, 0⟩, 0, 0⟩ 10 100 false).1 20 with
    | (s2, _, TimerCmd.fired) => (0 : Int) < s2.lastPresentedAt
    | (s2, _, TimerCmd.armed rem) =>
        20 + rem ≤ 130 → (0 : Int) < ((on_timeout s2 130).1).lastPresentedAt :=
  claim5_monotonic_presentation ⟨⟨0, 0⟩, 0, 0⟩ 10 20 130 100 (by decide) (by decide)

/-- C3 counterexample: closing an already-closed decoder raises
`AttributeError` (the container reference is `None`) instead of
succeeding, so `close` followed by `close` is not equivalent to a
single `close`. -/
theorem claim3_counterexample :
    close (⟨none, none⟩ : DecoderState) = Except.error DecodeError.attributeError ∧
    (close (⟨some [], none⟩ : DecoderState)).bind close =
      Except.error DecodeError.attributeError :=
  ⟨rfl, rfl⟩

/-- C3 (amended): `close()` on an open decoder succeeds and leaves it
closed, but a second `close()` raises `AttributeError` — `close()` is
not idempotent on an already-closed decoder. -/
theorem claim3_close_not_idempotent (s : DecoderState) (h : is_closed s = false) :
    close s = Except.ok ⟨none, none⟩ ∧
    is_closed ⟨none, none⟩ = true ∧
    close (⟨none, none⟩ : DecoderState) = Except.error DecodeError.attributeError := by
  refine ⟨?_, rfl, rfl⟩
  unfold is_closed at h
  unfold close
  cases hc : s.container with
  | none => rw [hc] at h; simp at h
  | some fs => rfl

/-- C3 witness: an open decoder holding no frames. -/
theorem claim3_close_not_idempotent_witness :
    close (⟨some [], none⟩ : DecoderState) = Except.ok ⟨none, none⟩ ∧
    is_closed ⟨none, none⟩ = true ∧
    close (⟨none, none⟩ : DecoderState) = Except.error DecodeError.attributeError :=
  claim3_close_not_idempotent ⟨some [], none⟩ (by decide)

/-- If `on_decode_pull` succeeds and its output contains the `finished`
signal, the run was the end-of-stream branch: the resulting state is
fully closed and the only signal is `finished`. -/
theorem on_decode_pull_finished (fs : List Frame) (sk : Bool)
    (r : DecoderState × List DSig)
    (h : on_decode_pull fs sk = Except.ok r) (hf : DSig.finished ∈ r.2) :
    r = (⟨none, none⟩, [DSig.finished]) := by
  cases fs with
  | nil =>
    simp only [on_decode_pull, Except.ok.injEq] at h
    exact h.symm
  | cons f rest =>
    simp only [on_decode_pull] at h
    split at h
    · simp only [Except.ok.injEq] at h
      subst h
      simp at hf
    · simp at h

/-- C6: whenever `on_decode` emits `finished`, the resulting decoder is
closed, and a further `on_decode` on it is a no-op: it returns the
state unchanged and emits no signals at all. -/
theorem claim6_end_of_stream (seekFn seekFn2 : Int → List Frame → List Frame)
    (s : DecoderState) (r : DecoderState × List DSig)
    (h : on_decode seekFn s = Except.ok r) (hf : DSig.finished ∈ r.2) :
    is_closed r.1 = true ∧ on_decode seekFn2 r.1 = Except.ok (r.1, []) := by
  obtain ⟨cont, slot⟩ := s
  have hr : r = (⟨none, none⟩, [DSig.finished]) := by
    cases cont with
    | none =>
      have h' : r = ((⟨none, slot⟩ : DecoderState), ([] : List DSig)) :=
        (Except.ok.inj h).symm
      rw [h'] at hf
      simp at hf
    | some frames =>
      cases slot with
      | none => exact on_decode_pull_finished frames false r h hf
      | some t => exact on_decode_pull_finished (seekFn t frames) true r h hf
  subst hr
  exact ⟨rfl, rfl⟩

/-- C6 witness: a decoder whose stream is exhausted emits `finished`,
afterwards decode requests are no-ops. -/
theorem claim6_end_of_stream_witness :
    is_closed (⟨none, none⟩ : DecoderState) = true ∧
    on_decode (fun _ fs => fs) ⟨none, none⟩ =
      Except.ok ((⟨none, none⟩ : DecoderState), []) :=
  claim6_end_of_stream (fun _ fs => fs) (fun _ fs => fs) ⟨some [], none⟩
    (⟨none, none⟩, [DSig.finished]) rfl (by simp)

/-- C7: `seek` only writes the pending-seek slot (no signals — its
result type carries none), a later seek overwrites an earlier one, the
next `on_decode` applies the pending seek to the stream and runs the
pull step with the `seeked = true` tag, and either outcome of that pull
step leaves the slot cleared: a pulled frame is emitted tagged
`seeked = true` and stream exhaustion emits `finished`. -/
theorem claim7_seek_slot (seekFn : Int → List Frame → List Frame)
    (s : DecoderState) (t1 t2 : Int) (frames : List Frame) (f : Frame)
    (rest : List Frame) (hopen : s.container = some frames)
    (hvalid : f.format_name = "yuv420p" ∨ f.format_name = "yuvj420p") :
    seek t1 s = { s with seekSlot := some t1 } ∧
    seek t2 (seek t1 s) = seek t2 s ∧
    on_decode seekFn (seek t2 s) = on_decode_pull (seekFn t2 frames) true ∧
    on_decode_pull (f :: rest) true =
      Except.ok (⟨some rest, none⟩,
        [DSig.decoded f.time
          (remove_padding f.planes.1, remove_padding f.planes.2.1,
            remove_padding f.planes.2.2) true]) ∧
    on_decode_pull ([] : List Frame) true = Except.ok (⟨none, none⟩, [DSig.finished]) := by
  refine ⟨rfl, rfl, ?_, ?_, rfl⟩
  · have hse : seek t2 s = (⟨s.container, some t2⟩ : DecoderState) := rfl
    rw [hse, hopen]
    rfl
  · simp only [on_decode_pull]
    rw [if_pos hvalid]

/-- C7 witness: seeking twice on a concrete open decoder, then decoding
a valid-format frame. -/
theorem claim7_seek_slot_witness :
    seek 4 (⟨some [], none⟩ : DecoderState) =
      { (⟨some [], none⟩ : DecoderState) with seekSlot := some 4 } ∧
    seek 9 (seek 4 (⟨some [], none⟩ : DecoderState)) =
      seek 9 (⟨some [], none⟩ : DecoderState) ∧
    on_decode (fun _ fs => fs) (seek 9 ⟨some [], none⟩) =
      on_decode_pull ((fun (_ : Int) (fs : List Frame) => fs) 9 []) true ∧
    on_decode_pull ([⟨"yuv420p", 2, (⟨1, 1, [5]⟩, ⟨1, 1, [6]⟩, ⟨1, 1, [7]⟩)⟩] : List Frame) true =
      Except.ok (⟨some [], none⟩,
        [DSig.decoded 2
          (remove_padding ⟨1, 1, [5]⟩, remove_padding ⟨1, 1, [6]⟩,
            remove_padding ⟨1, 1, [7]⟩) true]) ∧
    on_decode_pull ([] : List Frame) true = Except.ok (⟨none, none⟩, [DSig.finished]) :=
  claim7_seek_slot (fun _ fs => fs) ⟨some [], none⟩ 4 9 []
    ⟨"yuv420p", 2, (⟨1, 1, [5]⟩, ⟨1, 1, [6]⟩, ⟨1, 1, [7]⟩)⟩ [] rfl (Or.inl rfl)

/-- C8: a decode request on an open decoder whose next frame has pixel
format other than yuv420p/yuvj420p fails with the fatal
`unsupportedFormat` error naming that format (and emits nothing, as the
error return carries no signals), and this happens exactly for those
formats: a frame in either accepted variant instead succeeds and emits
one decoded event. -/
theorem claim8_unsupported_format (seekFn : Int → List Frame → List Frame)
    (f : Frame) (rest : List Frame) :
    (on_decode seekFn ⟨some (f :: rest), none⟩ =
        Except.error (DecodeError.unsupportedFormat f.format_name) ↔
      ¬ (f.format_name = "yuv420p" ∨ f.format_name = "yuvj420p")) ∧
    ((f.format_name = "yuv420p" ∨ f.format_name = "yuvj420p") →
      on_decode seekFn ⟨some (f :: rest), none⟩ =
        Except.ok (⟨some rest, none⟩,
          [DSig.decoded f.time
            (remove_padding f.planes.1, remove_padding f.planes.2.1,
              remove_padding f.planes.2.2) false])) := by
  have hpull : on_decode seekFn ⟨some (f :: rest), none⟩ = on_decode_pull (f :: rest) false :=
    rfl
  rw [hpull]
  by_cases hv : f.format_name = "yuv420p" ∨ f.format_name = "yuvj420p"
  · have hok : on_decode_pull (f :: rest) false =
        Except.ok (⟨some rest, none⟩,
          [DSig.decoded f.time
            (remove_padding f.planes.1, remove_padding f.planes.2.1,
              remove_padding f.planes.2.2) false]) := by
      simp only [on_decode_pull]
      rw [if_pos hv]
    rw [hok]
    constructor
    · constructor
      · intro hcontra
        exact absurd hcontra (by simp)
      · intro hn
        exact absurd hv hn
    · intro _
      rfl
  · have herr : on_decode_pull (f :: rest) false =
        Except.error (DecodeError.unsupportedFormat f.format_name) := by
      simp only [on_decode_pull]
      rw [if_neg hv]
    rw [herr]
    exact ⟨⟨fun _ => hv, fun _ => rfl⟩, fun hcon => absurd hcon hv⟩

/-- C8 witness: a frame in an unsupported format (rgb24) at the head of
the stream. -/
theorem claim8_unsupported_format_witness :
    (on_decode (fun _ fs => fs)
        ⟨some [⟨"rgb24", 0, (⟨1, 1, [0]⟩, ⟨1, 1, [0]⟩, ⟨1, 1, [0]⟩)⟩], none⟩ =
        Except.error (DecodeError.unsupportedFormat "rgb24") ↔
      ¬ ((("rgb24" : String) = "yuv420p") ∨ (("rgb24" : String) = "yuvj420p"))) ∧
    (((("rgb24" : String) = "yuv420p") ∨ (("rgb24" : String) = "yuvj420p")) →
      on_decode (fun _ fs => fs)
          ⟨some [⟨"rgb24", 0, (⟨1, 1, [0]⟩, ⟨1, 1, [0]⟩, ⟨1, 1, [0]⟩)⟩], none⟩ =
        Except.ok (⟨some [], none⟩,
          [DSig.decoded 0
            (remove_padding ⟨1, 1, [0]⟩, remove_padding ⟨1, 1, [0]⟩,
              remove_padding ⟨1, 1, [0]⟩) false])) :=
  claim8_unsupported_format (fun _ fs => fs)
    ⟨"rgb24", 0, (⟨1, 1, [0]⟩, ⟨1, 1, [0]⟩, ⟨1, 1, [0]⟩)⟩ []

/-- C9: with a nonnegative reported duration the accessor returns it
unchanged; with no reported duration it returns the container duration
converted through `av.time_base` and the stream time base, rounded to
the nearest integer (half away rounding up, matching `int(x + 0.5)` on
nonnegative values). -/
theorem claim9_duration (d cd : Int) (tb : Rat) (hd : 0 ≤ d) (hcd : 0 ≤ cd)
    (htb : 0 < tb) :
    duration (some d) cd tb = d ∧
    duration none cd tb = round ((cd : Rat) / (av_time_base : Rat) / tb) := by
  constructor
  · unfold duration pyInt
    have hq : (0 : Rat) ≤ (d : Rat) + 1 / 2 := by
      have : (0 : Rat) ≤ (d : Rat) := by exact_mod_cast hd
      linarith
    rw [if_pos hq]
    show ⌊(d : Rat) + 1 / 2⌋ = d
    rw [Int.floor_int_add]
    norm_num
  · unfold duration pyInt
    have hq0 : (0 : Rat) ≤ (cd : Rat) / (av_time_base : Rat) / tb := by
      have h1 : (0 : Rat) ≤ (cd : Rat) := by exact_mod_cast hcd
      have h2 : (0 : Rat) ≤ (av_time_base : Rat) := by norm_num [av_time_base]
      exact div_nonneg (div_nonneg h1 h2) htb.le
    have hq : (0 : Rat) ≤ (cd : Rat) / (av_time_base : Rat) / tb + 1 / 2 := by
      linarith
    rw [if_pos hq]
    show ⌊(cd : Rat) / (av_time_base : Rat) / tb + 1 / 2⌋ = _
    rw [round_eq]

/-- C9 witness: a stream reporting duration 7, and a 3-second container
(3000000 microseconds) over a time base of 1/2. -/
theorem claim9_duration_witness :
    duration (some 7) 3000000 (1 / 2) = 7 ∧
    duration none 3000000 (1 / 2) =
      round ((3000000 : Rat) / (av_time_base : Rat) / (1 / 2)) :=
  claim9_duration 7 3000000 (1 / 2) (by norm_num) (by norm_num) (by norm_num)

end Numbat
